import Mathlib

/-!
Shallow embedding of the bulk mail dispatcher (two source variants:
`email_sender.py`, the retry-capable variant, and `emp_test.py`, the
circuit-breaker variant) together with proofs of the spec claims.

Modelling conventions:
* A transport attempt's raw result is a `Raw` value: success, an SMTP
  response exception `(code, detail)`, or any other exception.
* Python exception handling is modelled with `Except PyExc`: the try body
  either returns or raises a `PyExc`; the handler chain either returns a
  value or re-raises.
* The circuit-breaker variant's shared `stop_script` flag is `CircuitState`.
  Concurrent worker executions are modelled as an arbitrary linearization:
  a list of `Raw` results in worker-execution order, folded through the
  per-worker step function `EmpTest.send_email`.  Quantifying over the list
  quantifies over all execution orders.
* Wall-clock time for the rate limiter is an abstract millisecond counter:
  `time.sleep(0.1)` advances the coordinator clock by at least 100 ms
  (`interval + overhead i` with `overhead i ≥ 0`); worker send durations
  never advance the coordinator clock.
-/

namespace Mailer

/-- One dispatch task: a tuple `(recipient, from_name, subject)` as built in
both variants' `main`; the sender address is a separate per-run constant. -/
structure Task where
  recipient : String
  from_name : String
  subject : String
deriving DecidableEq

/-- Raw result of one transport attempt: success, an
`smtplib.SMTPResponseException` with status code and detail, or any other
exception (connection refused, timeout, DNS failure, local I/O error). -/
inductive Raw where
  | success : Raw
  | resp (code : Nat) (detail : String) : Raw
  | exc (msg : String) : Raw
deriving DecidableEq

/-- Python exceptions that can escape the try body of `send_email`. -/
inductive PyExc where
  | smtpResponse (code : Nat) (detail : String) : PyExc
  | other (msg : String) : PyExc
deriving DecidableEq

/-- The try body of `send_email` (message construction plus SMTP submission):
returns normally on success, raises otherwise. -/
def tryBody : Raw → Except PyExc Unit
  | .success => .ok ()
  | .resp c d => .error (.smtpResponse c d)
  | .exc m => .error (.other m)

/-- Character-list prefix test (needles and haystacks as `List Char`). -/
def hasPrefixC : List Char → List Char → Bool
  | [], _ => true
  | _ :: _, [] => false
  | a :: as, b :: bs => a == b && hasPrefixC as bs

/-- Character-list infix test. -/
def hasInfixC (needle : List Char) : List Char → Bool
  | [] => hasPrefixC needle []
  | c :: rest => hasPrefixC needle (c :: rest) || hasInfixC needle rest

/-- Python's `needle in hay` substring test on strings. -/
def pyIn (needle hay : String) : Bool := hasInfixC needle.data hay.data

end Mailer

namespace EmailSender
open Mailer

/-- The except-clause chain of `email_sender.send_email`: an
`SMTPResponseException` with code in 450–499 yields `False` (retry later),
any other response code yields `True` (bounced, done); the broad
`except Exception` clause yields `True` for everything else. -/
def handlers : PyExc → Except PyExc Bool
  | .smtpResponse c _ => if 450 ≤ c ∧ c ≤ 499 then .ok false else .ok true
  | .other _ => .ok true

/-- `email_sender.send_email`: runs the try body; a raised exception is fed
to the handler chain.  `Except.ok b` is the returned value `b`; `.error e`
would be an exception escaping the worker (never happens: the handlers are
total). -/
def send_email (raw : Raw) : Except PyExc Bool :=
  match tryBody raw with
  | .ok () => .ok true
  | .error e => handlers e

/-- The Bool actually returned by `email_sender.send_email` (it never
raises; the `.error` fallback is unreachable). -/
def sendResult (raw : Raw) : Bool :=
  match send_email raw with
  | .ok b => b
  | .error _ => true

/-- `email_sender.send_emails_in_parallel`: dispatches every task of the
round (the outcome of task `t` is `outcome t`) and collects, in submission
order, the tasks whose result was `False` (temporary failure → retry). -/
def send_emails_in_parallel (outcome : Task → Raw) (email_list : List Task) :
    List Task :=
  email_list.filter (fun t => ! sendResult (outcome t))

/-- The retry loop of `email_sender.main`: up to `n` further rounds, each on
the previous round's failed list, stopping early when nothing is left.
`r` is the index of the next dispatch round (round 0 is the initial send);
`outcome r t` is the transport behaviour of task `t` in round `r`. -/
def retry_loop (outcome : Nat → Task → Raw) :
    Nat → Nat → List Task → List Task
  | 0, _, failed => failed
  | n + 1, r, failed =>
      if failed.isEmpty then failed
      else retry_loop outcome n (r + 1)
        (send_emails_in_parallel (outcome r) failed)

/-- Residual failed list after `email_sender.main`'s initial send plus the
retry loop with bound `max_retries` (the run's RunResult). -/
def finalFailed (max_retries : Nat) (outcome : Nat → Task → Raw)
    (tasks : List Task) : List Task :=
  retry_loop outcome max_retries 1
    (send_emails_in_parallel (outcome 0) tasks)

/-- The batches dispatched by the retry loop, in order (each element is one
round's task list). -/
def retry_rounds (outcome : Nat → Task → Raw) :
    Nat → Nat → List Task → List (List Task)
  | 0, _, _ => []
  | n + 1, r, failed =>
      if failed.isEmpty then []
      else failed :: retry_rounds outcome n (r + 1)
        (send_emails_in_parallel (outcome r) failed)

/-- All dispatched rounds of a run of `email_sender.main`: the initial task
list, then every retry batch actually dispatched. -/
def rounds (max_retries : Nat) (outcome : Nat → Task → Raw)
    (tasks : List Task) : List (List Task) :=
  tasks :: retry_rounds outcome max_retries 1
    (send_emails_in_parallel (outcome 0) tasks)

/-- The successive-rounds relation: every round after the first is the
previous round filtered to its retryable tasks (`r` indexes the first listed
round's dispatch). -/
def roundChain (outcome : Nat → Task → Raw) : Nat → List (List Task) → Prop
  | _, [] => True
  | _, [_] => True
  | r, b1 :: b2 :: rest =>
      b2 = send_emails_in_parallel (outcome r) b1 ∧
        roundChain outcome (r + 1) (b2 :: rest)

end EmailSender

namespace EmpTest
open Mailer

/-- The shared `stop_script` flag of `emp_test.py`: the circuit is `Open`
(flag `False`, normal) or `Tripped` (flag `True`). -/
inductive CircuitState where
  | Open : CircuitState
  | Tripped : CircuitState
deriving DecidableEq

/-- What one worker execution of `emp_test.send_email` did: the circuit
state after it ran, whether it entered the try block (built the message and
attempted the transport submission), and the value it returned. -/
structure SendStep where
  state : CircuitState
  attempted : Bool
  ret : Bool
deriving DecidableEq

/-- The logged message `f"SMTP error {e.smtp_code}: {e.smtp_error.decode()}"`
built by `emp_test.send_email` for a response exception. -/
def error_msg (code : Nat) (detail : String) : String :=
  "SMTP error " ++ toString code ++ ": " ++ detail

/-- The critical-error test of `emp_test.send_email`:
`"5.7.1" in error_msg`. -/
def isCritical (code : Nat) (detail : String) : Bool :=
  pyIn "5.7.1" (error_msg code detail)

/-- Whether a raw transport result is the Fatal (circuit-tripping) case: a
response exception whose logged message contains `"5.7.1"`. -/
def fatalRaw : Raw → Bool
  | .resp c d => isCritical c d
  | _ => false

/-- One atomic worker execution of `emp_test.send_email`: if `stop_script`
is already set it returns `False` without touching the transport; otherwise
it attempts the send, returns `True` on success, and on any exception
returns `False`, setting `stop_script` when the response contains the
`"5.7.1"` sentinel. -/
def send_email (st : CircuitState) (raw : Raw) : SendStep :=
  match st with
  | .Tripped => ⟨.Tripped, false, false⟩
  | .Open =>
    match raw with
    | .success => ⟨.Open, true, true⟩
    | .resp c d =>
        if isCritical c d then ⟨.Tripped, true, false⟩
        else ⟨.Open, true, false⟩
    | .exc _ => ⟨.Open, true, false⟩

/-- Circuit states after each worker execution, for workers running (in the
linearized execution order) against the raw results `raws`, starting from
state `st`. -/
def roundStates (st : CircuitState) : List Raw → List CircuitState
  | [] => []
  | r :: rest =>
      let s := send_email st r
      s.state :: roundStates s.state rest

/-- Whether each worker execution attempted a transport submission. -/
def roundAttempts (st : CircuitState) : List Raw → List Bool
  | [] => []
  | r :: rest =>
      let s := send_email st r
      s.attempted :: roundAttempts s.state rest

/-- Circuit state after all workers of a dispatch have executed. -/
def finalState (st : CircuitState) (raws : List Raw) : CircuitState :=
  raws.foldl (fun s r => (send_email s r).state) st

/-- Number of circuit-state changes along a state trace (the trace includes
the initial state in front). -/
def countChanges : List CircuitState → Nat
  | [] => 0
  | [_] => 0
  | a :: b :: rest => (if a = b then 0 else 1) + countChanges (b :: rest)

/-- Whether `emp_test.run_bulk`'s `as_completed` drain calls `sys.exit(1)`:
the drain checks `stop_script` once per completed future, and the check for
the k-th completed worker runs after that worker finished, hence reads the
flag no earlier than the state after the first k worker executions. -/
def runBulkExits (st : CircuitState) (raws : List Raw) : Bool :=
  (roundStates st raws).any (fun s => s = .Tripped)

/-- Process exit status (0 or the distinguished failure status 1). -/
inductive ExitCode where
  | success : ExitCode
  | failure : ExitCode
deriving DecidableEq

/-- Observable result of a run of `emp_test.main`: the exit status, the
per-worker transport-attempt flags of every dispatched worker (probe batch
first), and the final circuit state. -/
structure MainResult where
  exitCode : ExitCode
  attempted : List Bool
  final : CircuitState
deriving DecidableEq

/-- Raw transport results of the probe batch `recipients[:2]` of
`emp_test.main`, in linearized worker-execution order. -/
def probeRaws (outcome : Task → Raw) (recipients : List Task) : List Raw :=
  (recipients.take 2).map outcome

/-- Raw transport results of the remainder batch `recipients[2:]` of
`emp_test.main`, in linearized worker-execution order. -/
def restRaws (outcome : Task → Raw) (recipients : List Task) : List Raw :=
  (recipients.drop 2).map outcome

/-- `emp_test.main` after input validation: dispatch the probe batch
(`recipients[:2]`) through `run_bulk`, exit 1 if the drain saw the trip or
`stop_script` is set, exit 0 in test-only mode, otherwise dispatch the
remainder (`recipients[2:]`) through `run_bulk` and exit 1 exactly when its
drain saw the trip.  `outcome t` is the transport behaviour of task `t`;
each batch's workers are linearized in list order (quantify over permuted
inputs for other orders). -/
def main (outcome : Task → Raw) (test_only : Bool) (recipients : List Task) :
    MainResult :=
  let pr := probeRaws outcome recipients
  let st1 := finalState .Open pr
  let att1 := roundAttempts .Open pr
  if runBulkExits .Open pr then ⟨.failure, att1, st1⟩
  else if st1 = .Tripped then ⟨.failure, att1, st1⟩
  else if test_only then ⟨.success, att1, st1⟩
  else
    let rr := restRaws outcome recipients
    let st2 := finalState st1 rr
    let att2 := roundAttempts st1 rr
    if runBulkExits st1 rr then ⟨.failure, att1 ++ att2, st2⟩
    else ⟨.success, att1 ++ att2, st2⟩

end EmpTest

namespace EmailSender
open Mailer

/-- `email_sender.main` after input validation: runs the full retry
pipeline and always exits 0 — the source prints the residual failure count
but has no failure exit path. -/
def main (max_retries : Nat) (outcome : Nat → Task → Raw)
    (tasks : List Task) : List Task × EmpTest.ExitCode :=
  (finalFailed max_retries outcome tasks, .success)

end EmailSender

namespace Mailer

/-- The submission loop shared by both variants (`executor.submit(...)` then
`time.sleep(0.1)`): an abstract-time schedule.  Each list entry is
`(task, submissionStart, completionTime)`.  The coordinator clock advances
by `interval + overhead i` between successive submissions (`overhead i`
models that `sleep` waits at least the requested interval plus loop
overhead); a worker's send duration `duration i` only determines its own
completion time and never advances the coordinator clock. -/
def submissionSchedule (interval : Nat) (overhead duration : Nat → Nat) :
    Nat → Nat → List Task → List (Task × Nat × Nat)
  | _, _, [] => []
  | i, clock, t :: ts =>
      (t, clock, clock + duration i) ::
        submissionSchedule interval overhead duration (i + 1)
          (clock + interval + overhead i) ts

/-- The configured minimum spacing between submissions: `time.sleep(0.1)`,
i.e. 100 ms. -/
def sleepIntervalMs : Nat := 100

end Mailer

/-! ### Lemmas about the retry-capable variant (`email_sender.py`) -/

namespace EmailSender
open Mailer

theorem sendResult_success : sendResult .success = true := rfl

theorem sendResult_exc (m : String) : sendResult (.exc m) = true := rfl

theorem sendResult_resp (c : Nat) (d : String) :
    sendResult (.resp c d) = if 450 ≤ c ∧ c ≤ 499 then false else true := by
  by_cases h : 450 ≤ c ∧ c ≤ 499 <;>
    simp [sendResult, send_email, tryBody, handlers, h]

theorem retry_loop_nil (outcome : Nat → Task → Raw) (n r : Nat) :
    retry_loop outcome n r [] = [] := by
  cases n <;> simp [retry_loop]

theorem mem_send_emails_in_parallel (outcome : Task → Raw)
    (tasks : List Task) (t : Task) :
    t ∈ send_emails_in_parallel outcome tasks ↔
      t ∈ tasks ∧ sendResult (outcome t) = false := by
  simp [send_emails_in_parallel, List.mem_filter]

theorem roundChain_cons (outcome : Nat → Task → Raw) :
    ∀ (n r : Nat) (f : List Task),
      roundChain outcome r
        (f :: retry_rounds outcome n (r + 1)
          (send_emails_in_parallel (outcome r) f)) := by
  intro n
  induction n with
  | zero => intro r f; simp [retry_rounds, roundChain]
  | succ n ih =>
      intro r f
      by_cases he : (send_emails_in_parallel (outcome r) f).isEmpty
      · simp [retry_rounds, he, roundChain]
      · simp only [retry_rounds, he, if_neg, Bool.false_eq_true,
          not_false_eq_true, ite_false]
        exact ⟨rfl, ih (r + 1) (send_emails_in_parallel (outcome r) f)⟩

theorem roundChain_rounds (outcome : Nat → Task → Raw)
    (max_retries : Nat) (tasks : List Task) :
    roundChain outcome 0 (rounds max_retries outcome tasks) :=
  roundChain_cons outcome max_retries 0 tasks

theorem sublist_of_roundChain (outcome : Nat → Task → Raw) :
    ∀ (l : List (List Task)) (r : Nat), roundChain outcome r l →
      List.Chain' (fun a b => List.Sublist b a) l := by
  intro l
  induction l with
  | nil => intro r _; exact List.chain'_nil
  | cons a tl ih =>
      intro r hc
      cases tl with
      | nil => exact List.chain'_singleton a
      | cons b rest =>
          obtain ⟨hb, hrest⟩ := hc
          refine List.chain'_cons.mpr ⟨?_, ih (r + 1) hrest⟩
          rw [hb]
          exact List.filter_sublist a

theorem mem_retry_rounds (outcome : Nat → Task → Raw) :
    ∀ (n r : Nat) (f : List Task) (j : Nat) (t : Task),
      t ∈ (retry_rounds outcome n r f).getD j [] →
      t ∈ f ∧ ∀ k, k < j → sendResult (outcome (r + k) t) = false := by
  intro n
  induction n with
  | zero => intro r f j t hmem; simp [retry_rounds] at hmem
  | succ n ih =>
      intro r f j t hmem
      by_cases he : f = []
      · subst he; simp [retry_rounds] at hmem
      · have hie : f.isEmpty = false := by
          cases f with
          | nil => exact absurd rfl he
          | cons a l => rfl
        have hrr : retry_rounds outcome (n + 1) r f
            = f :: retry_rounds outcome n (r + 1)
                (send_emails_in_parallel (outcome r) f) := by
          simp [retry_rounds, hie]
        rw [hrr] at hmem
        cases j with
        | zero =>
            refine ⟨hmem, ?_⟩
            intro k hk
            exact absurd hk (Nat.not_lt_zero k)
        | succ j =>
            have hmem' : t ∈ (retry_rounds outcome n (r + 1)
                (send_emails_in_parallel (outcome r) f)).getD j [] := hmem
            obtain ⟨hmemf, hall⟩ :=
              ih (r + 1) (send_emails_in_parallel (outcome r) f) j t hmem'
            have hmf := (mem_send_emails_in_parallel (outcome r) f t).mp hmemf
            refine ⟨hmf.1, ?_⟩
            intro k hk
            cases k with
            | zero => simpa using hmf.2
            | succ k =>
                have hres : sendResult (outcome (r + 1 + k) t) = false :=
                  hall k (Nat.lt_of_succ_lt_succ hk)
                have harith : r + 1 + k = r + (k + 1) := by omega
                rwa [harith] at hres

end EmailSender

/-! ### Lemmas about the circuit-breaker variant (`emp_test.py`) -/

namespace EmpTest
open Mailer

theorem send_email_tripped (raw : Raw) :
    send_email .Tripped raw = ⟨.Tripped, false, false⟩ := rfl

theorem send_email_open_fatal (raw : Raw) (h : fatalRaw raw = true) :
    send_email .Open raw = ⟨.Tripped, true, false⟩ := by
  cases raw with
  | success => simp [fatalRaw] at h
  | resp c d => simp [fatalRaw] at h; simp [send_email, h]
  | exc m => simp [fatalRaw] at h

theorem send_email_open_nonfatal (raw : Raw) (h : fatalRaw raw = false) :
    (send_email .Open raw).state = .Open ∧
      (send_email .Open raw).attempted = true := by
  cases raw with
  | success => exact ⟨rfl, rfl⟩
  | resp c d =>
      simp only [fatalRaw] at h
      simp [send_email, h]
  | exc m => exact ⟨rfl, rfl⟩

theorem roundStates_tripped (raws : List Raw) :
    roundStates .Tripped raws = List.replicate raws.length .Tripped := by
  induction raws with
  | nil => rfl
  | cons r rest ih => simp [roundStates, send_email, List.replicate_succ, ih]

theorem roundAttempts_tripped (raws : List Raw) :
    roundAttempts .Tripped raws = List.replicate raws.length false := by
  induction raws with
  | nil => rfl
  | cons r rest ih =>
      simp [roundAttempts, send_email, List.replicate_succ, ih]

theorem finalState_tripped (raws : List Raw) :
    finalState .Tripped raws = .Tripped := by
  induction raws with
  | nil => rfl
  | cons r rest ih =>
      show finalState (send_email .Tripped r).state rest = .Tripped
      rw [send_email_tripped]
      exact ih

theorem countChanges_const (a : CircuitState) (n : Nat) :
    countChanges (a :: List.replicate n a) = 0 := by
  induction n with
  | zero => rfl
  | succ n ih => simp [List.replicate_succ, countChanges, ih]

theorem roundStates_length (st : CircuitState) (raws : List Raw) :
    (roundStates st raws).length = raws.length := by
  induction raws generalizing st with
  | nil => rfl
  | cons r rest ih => simp [roundStates, ih]

theorem roundAttempts_length (st : CircuitState) (raws : List Raw) :
    (roundAttempts st raws).length = raws.length := by
  induction raws generalizing st with
  | nil => rfl
  | cons r rest ih => simp [roundAttempts, ih]

theorem monotone_states (raws : List Raw) :
    ∀ st : CircuitState,
      List.Chain' (fun a b => a = CircuitState.Tripped → b = .Tripped)
        (st :: roundStates st raws) := by
  induction raws with
  | nil => intro st; exact List.chain'_singleton st
  | cons r rest ih =>
      intro st
      show List.Chain' _
        (st :: (send_email st r).state :: roundStates (send_email st r).state rest)
      refine List.chain'_cons.mpr ⟨?_, ih (send_email st r).state⟩
      intro hst
      rw [hst, send_email_tripped]

theorem finalState_of_any_fatal (raws : List Raw)
    (h : raws.any fatalRaw = true) : finalState .Open raws = .Tripped := by
  induction raws with
  | nil => simp at h
  | cons r rest ih =>
      by_cases hf : fatalRaw r = true
      · show finalState (send_email .Open r).state rest = .Tripped
        rw [send_email_open_fatal r hf]
        exact finalState_tripped rest
      · have hr : fatalRaw r = false := by
          cases hfr : fatalRaw r
          · rfl
          · exact absurd hfr hf
        have hrest : rest.any fatalRaw = true := by
          simp [List.any_cons, hr] at h
          simpa using h
        show finalState (send_email .Open r).state rest = .Tripped
        rw [(send_email_open_nonfatal r hr).1]
        exact ih hrest

theorem countChanges_of_any_fatal (raws : List Raw)
    (h : raws.any fatalRaw = true) :
    countChanges (CircuitState.Open :: roundStates .Open raws) = 1 := by
  induction raws with
  | nil => simp at h
  | cons r rest ih =>
      by_cases hf : fatalRaw r = true
      · show countChanges (CircuitState.Open ::
          (send_email .Open r).state :: roundStates (send_email .Open r).state rest) = 1
        rw [send_email_open_fatal r hf]
        show countChanges (CircuitState.Open ::
          CircuitState.Tripped :: roundStates .Tripped rest) = 1
        rw [roundStates_tripped]
        show (if CircuitState.Open = CircuitState.Tripped then 0 else 1)
            + countChanges (CircuitState.Tripped ::
                List.replicate rest.length CircuitState.Tripped) = 1
        rw [countChanges_const]
        simp
      · have hr : fatalRaw r = false := by
          cases hfr : fatalRaw r
          · rfl
          · exact absurd hfr hf
        have hrest : rest.any fatalRaw = true := by
          simp [List.any_cons, hr] at h
          simpa using h
        show countChanges (CircuitState.Open ::
          (send_email .Open r).state :: roundStates (send_email .Open r).state rest) = 1
        rw [(send_email_open_nonfatal r hr).1]
        show (if CircuitState.Open = CircuitState.Open then 0 else 1)
            + countChanges (CircuitState.Open :: roundStates .Open rest) = 1
        rw [ih hrest]
        simp

theorem no_attempt_after_trip (raws : List Raw) :
    ∀ (st : CircuitState) (i : Nat), i < raws.length →
      (st :: roundStates st raws).getD i .Open = .Tripped →
      (roundAttempts st raws).getD i true = false := by
  induction raws with
  | nil => intro st i hi; simp at hi
  | cons r rest ih =>
      intro st i hi hst
      cases i with
      | zero =>
          have hst0 : st = .Tripped := by simpa using hst
          subst hst0
          show (roundAttempts .Tripped (r :: rest)).getD 0 true = false
          simp [roundAttempts, send_email_tripped]
      | succ i =>
          have hi' : i < rest.length := by simpa using hi
          have hst' : ((send_email st r).state ::
              roundStates (send_email st r).state rest).getD i .Open = .Tripped := by
            simpa [roundStates] using hst
          have := ih (send_email st r).state i hi' hst'
          simpa [roundAttempts] using this

theorem runBulkExits_open (raws : List Raw) :
    runBulkExits .Open raws = true ↔ finalState .Open raws = .Tripped := by
  induction raws with
  | nil => simp [runBulkExits, roundStates, finalState]
  | cons r rest ih =>
      show ((send_email .Open r).state :: roundStates (send_email .Open r).state rest).any
          (fun s => s = .Tripped) = true ↔
        finalState (send_email .Open r).state rest = .Tripped
      cases hs : (send_email .Open r).state with
      | Tripped =>
          rw [roundStates_tripped, finalState_tripped]
          simp
      | Open =>
          simp only [List.any_cons]
          constructor
          · intro h
            rcases Bool.or_eq_true_iff.mp h with h1 | h2
            · simp at h1
            · exact ih.mp h2
          · intro h
            have hx := ih.mpr h
            simp only [runBulkExits] at hx
            simp [hx]

theorem main_probe_tripped (outcome : Task → Raw) (test_only : Bool)
    (recipients : List Task)
    (h : finalState .Open (probeRaws outcome recipients) = .Tripped) :
    main outcome test_only recipients
      = ⟨.failure, roundAttempts .Open (probeRaws outcome recipients), .Tripped⟩ := by
  have hx : runBulkExits .Open (probeRaws outcome recipients) = true :=
    (runBulkExits_open _).mpr h
  simp [main, hx, h]

theorem main_probe_open_test_only (outcome : Task → Raw)
    (recipients : List Task)
    (h : finalState .Open (probeRaws outcome recipients) = .Open) :
    main outcome true recipients
      = ⟨.success, roundAttempts .Open (probeRaws outcome recipients), .Open⟩ := by
  have hx : runBulkExits .Open (probeRaws outcome recipients) = false := by
    cases hb : runBulkExits .Open (probeRaws outcome recipients)
    · rfl
    · rw [(runBulkExits_open _).mp hb] at h
      exact absurd h (by simp)
  simp [main, hx, h]

theorem main_probe_open_full (outcome : Task → Raw) (recipients : List Task)
    (h : finalState .Open (probeRaws outcome recipients) = .Open) :
    main outcome false recipients
      = ⟨if runBulkExits .Open (restRaws outcome recipients) then .failure
            else .success,
          roundAttempts .Open (probeRaws outcome recipients)
            ++ roundAttempts .Open (restRaws outcome recipients),
          finalState .Open (restRaws outcome recipients)⟩ := by
  have hx : runBulkExits .Open (probeRaws outcome recipients) = false := by
    cases hb : runBulkExits .Open (probeRaws outcome recipients)
    · rfl
    · rw [(runBulkExits_open _).mp hb] at h
      exact absurd h (by simp)
  cases hb : runBulkExits .Open (restRaws outcome recipients)
  · simp [main, hx, h, hb]
  · simp [main, hx, h, hb]

end EmpTest

/-! ### Lemmas about the string sentinel and the submission schedule -/

namespace Mailer

theorem hasInfixC_append_left (needle l2 : List Char)
    (h : hasInfixC needle l2 = true) :
    ∀ l1 : List Char, hasInfixC needle (l1 ++ l2) = true := by
  intro l1
  induction l1 with
  | nil => simpa using h
  | cons c t ih => simp [hasInfixC, ih]

theorem submissionSchedule_chain (interval : Nat) (overhead duration : Nat → Nat) :
    ∀ (tasks : List Task) (i0 c0 : Nat),
      List.Chain' (fun a b => a + interval ≤ b)
        ((submissionSchedule interval overhead duration i0 c0 tasks).map
          (fun e => e.2.1)) := by
  intro tasks
  induction tasks with
  | nil => intro i0 c0; exact List.chain'_nil
  | cons t ts ih =>
      intro i0 c0
      cases ts with
      | nil => simp [submissionSchedule]
      | cons t2 ts2 =>
          simp only [submissionSchedule, List.map_cons]
          refine List.chain'_cons.mpr ⟨Nat.le_add_right _ _, ?_⟩
          have := ih (i0 + 1) (c0 + interval + overhead i0)
          simpa [submissionSchedule] using this

theorem submissionSchedule_starts_duration_free
    (interval : Nat) (overhead duration duration2 : Nat → Nat) :
    ∀ (tasks : List Task) (i0 c0 : Nat),
      (submissionSchedule interval overhead duration i0 c0 tasks).map
          (fun e => (e.1, e.2.1))
        = (submissionSchedule interval overhead duration2 i0 c0 tasks).map
          (fun e => (e.1, e.2.1)) := by
  intro tasks
  induction tasks with
  | nil => intro i0 c0; rfl
  | cons t ts ih =>
      intro i0 c0
      simp only [submissionSchedule, List.map_cons]
      rw [ih (i0 + 1) (c0 + interval + overhead i0)]

end Mailer

namespace EmpTest
open Mailer

theorem isCritical_of_detail (c : Nat) (d : String)
    (h : pyIn "5.7.1" d = true) : isCritical c d = true := by
  show hasInfixC ("5.7.1").data (("SMTP error " ++ toString c ++ ": ") ++ d).data = true
  rw [String.data_append]
  exact hasInfixC_append_left _ _ h _

end EmpTest

namespace EmailSender
open Mailer

theorem send_email_ok (raw : Raw) :
    send_email raw = Except.ok (sendResult raw) := by
  cases raw with
  | success => rfl
  | exc m => rfl
  | resp c d =>
      by_cases h : 450 ≤ c ∧ c ≤ 499 <;>
        simp [send_email, tryBody, handlers, sendResult, h]

end EmailSender

/-! ### The claims -/

/-- C1: over any linearized worker-execution order (`raws`) of a run of the
circuit-breaker variant, if some task's transport attempt yields a Fatal
(5.7.1) outcome, then the circuit ends `Tripped`, the state trace changes
value exactly once (one `Open → Tripped` transition), the trace is monotone
(once `Tripped`, never `Open` again), and every worker that starts while the
circuit is already `Tripped` performs no transport submission. -/
theorem claim1_fatal_trips_once (raws : List Mailer.Raw)
    (h : raws.any EmpTest.fatalRaw = true) :
    EmpTest.finalState .Open raws = .Tripped
  ∧ EmpTest.countChanges
      (EmpTest.CircuitState.Open :: EmpTest.roundStates .Open raws) = 1
  ∧ List.Chain'
      (fun a b => a = EmpTest.CircuitState.Tripped →
        b = EmpTest.CircuitState.Tripped)
      (EmpTest.CircuitState.Open :: EmpTest.roundStates .Open raws)
  ∧ ∀ i, i < raws.length →
      (EmpTest.CircuitState.Open ::
          EmpTest.roundStates .Open raws).getD i .Open = .Tripped →
      (EmpTest.roundAttempts .Open raws).getD i true = false :=
  ⟨EmpTest.finalState_of_any_fatal raws h,
   EmpTest.countChanges_of_any_fatal raws h,
   EmpTest.monotone_states raws .Open,
   fun i hi hst => EmpTest.no_attempt_after_trip raws .Open i hi hst⟩

/-- Witness for C1: a concrete three-worker round whose second worker hits a
5.7.1 rejection satisfies the hypothesis, and the circuit ends `Tripped`. -/
theorem claim1_witness :
    ([Mailer.Raw.success, Mailer.Raw.resp 550 "550 5.7.1 blocked",
        Mailer.Raw.success].any EmpTest.fatalRaw = true)
  ∧ EmpTest.finalState .Open
      [Mailer.Raw.success, Mailer.Raw.resp 550 "550 5.7.1 blocked",
        Mailer.Raw.success] = .Tripped :=
  ⟨by decide, (claim1_fatal_trips_once _ (by decide)).1⟩

/-- C2 counterexample: in the retry-capable variant a rejection whose detail
contains the sentinel "5.7.1" is NOT terminal when its status code is in
450–499: `send_email` returns `False`, the task enters the failed list, and
it is re-dispatched in the next round — so the claim "never retried, signals
the CircuitBreaker" is false for this code. -/
theorem claim2_counterexample :
    EmailSender.sendResult (.resp 451 "5.7.1 denied") = false
  ∧ EmailSender.send_emails_in_parallel (fun _ => .resp 451 "5.7.1 denied")
      [⟨"user@example.com", "Alice", "Hello"⟩]
      = [⟨"user@example.com", "Alice", "Hello"⟩]
  ∧ EmailSender.rounds 1 (fun _ _ => .resp 451 "5.7.1 denied")
      [⟨"user@example.com", "Alice", "Hello"⟩]
      = [[⟨"user@example.com", "Alice", "Hello"⟩],
         [⟨"user@example.com", "Alice", "Hello"⟩]] := by decide

/-- C2 (amended): in the circuit-breaker variant, a rejection whose detail
contains "5.7.1" anywhere is detected (the sentinel also appears in the
logged message the code scans), trips the shared circuit state, and returns
a non-success terminal result; the retry-capable variant never inspects the
rejection detail — its classification depends on the status code only. -/
theorem claim2_fatal_sentinel :
    (∀ (c : Nat) (d : String),
        Mailer.pyIn "5.7.1" d = true → EmpTest.isCritical c d = true)
  ∧ (∀ (c : Nat) (d : String), EmpTest.isCritical c d = true →
        EmpTest.send_email .Open (.resp c d) = ⟨.Tripped, true, false⟩)
  ∧ (∀ (c : Nat) (d d2 : String),
        EmailSender.sendResult (.resp c d) = EmailSender.sendResult (.resp c d2)) := by
  refine ⟨?_, ?_, ?_⟩
  · intro c d h
    exact EmpTest.isCritical_of_detail c d h
  · intro c d h
    simp [EmpTest.send_email, h]
  · intro c d d2
    rw [EmailSender.sendResult_resp, EmailSender.sendResult_resp]

/-- Witness for C2 (amended): a concrete 550 rejection whose detail carries
"5.7.1" is detected and trips the circuit. -/
theorem claim2_witness :
    Mailer.pyIn "5.7.1" "5.7.1 blocked by policy" = true
  ∧ EmpTest.isCritical 550 "5.7.1 blocked by policy" = true
  ∧ EmpTest.send_email .Open (.resp 550 "5.7.1 blocked by policy")
      = ⟨.Tripped, true, false⟩ :=
  ⟨by decide, claim2_fatal_sentinel.1 550 "5.7.1 blocked by policy" (by decide),
   claim2_fatal_sentinel.2.1 550 "5.7.1 blocked by policy" (by decide)⟩

/-- C3: for every protocol status code received by the retry-capable
variant, `send_email` classifies 450–499 inclusive as retryable (returns
`False`) and every other rejection code as terminal (returns `True`); a
task enters the next retry set exactly when its result was `False`. -/
theorem claim3_code_range (c : Nat) (d : String) :
    (EmailSender.sendResult (.resp c d) = false ↔ 450 ≤ c ∧ c ≤ 499)
  ∧ ∀ (outcome : Mailer.Task → Mailer.Raw) (tasks : List Mailer.Task)
      (t : Mailer.Task),
      t ∈ EmailSender.send_emails_in_parallel outcome tasks ↔
        t ∈ tasks ∧ EmailSender.sendResult (outcome t) = false := by
  constructor
  · rw [EmailSender.sendResult_resp]
    by_cases h : 450 ≤ c ∧ c ≤ 499 <;> simp [h]
  · intro outcome tasks t
    exact EmailSender.mem_send_emails_in_parallel outcome tasks t

/-- C4: in the retry-capable variant, every dispatched round after the first
is exactly the previous round filtered to its retryable tasks — the same
`Task` values (recipient, sender display name, subject unchanged; the sender
address is a per-run constant), in their original relative order (each round
is a sublist of the previous) — and a task whose outcome at round `i` was
terminal (`Sent`, `PermanentBounce`, or a transport error) never appears in
any later round `j > i`. -/
theorem claim4_retry_rounds (outcome : Nat → Mailer.Task → Mailer.Raw)
    (max_retries : Nat) (tasks : List Mailer.Task) :
    EmailSender.roundChain outcome 0
      (EmailSender.rounds max_retries outcome tasks)
  ∧ List.Chain' (fun a b => List.Sublist b a)
      (EmailSender.rounds max_retries outcome tasks)
  ∧ ∀ i j (t : Mailer.Task), i < j →
      EmailSender.sendResult (outcome i t) = true →
      t ∉ (EmailSender.rounds max_retries outcome tasks).getD j [] := by
  refine ⟨EmailSender.roundChain_rounds outcome max_retries tasks,
    EmailSender.sublist_of_roundChain outcome _ 0
      (EmailSender.roundChain_rounds outcome max_retries tasks), ?_⟩
  intro i j t hij hterm hmem
  cases j with
  | zero => exact absurd hij (Nat.not_lt_zero i)
  | succ j =>
      have hmem' : t ∈ (EmailSender.retry_rounds outcome max_retries 1
          (EmailSender.send_emails_in_parallel (outcome 0) tasks)).getD j [] := by
        simpa [EmailSender.rounds] using hmem
      obtain ⟨hf0, hall⟩ :=
        EmailSender.mem_retry_rounds outcome max_retries 1 _ j t hmem'
      have h0 : EmailSender.sendResult (outcome 0 t) = false :=
        ((EmailSender.mem_send_emails_in_parallel (outcome 0) tasks t).mp hf0).2
      cases i with
      | zero => rw [hterm] at h0; exact absurd h0 (by simp)
      | succ i =>
          have hi : i < j := Nat.lt_of_succ_lt_succ hij
          have hres : EmailSender.sendResult (outcome (1 + i) t) = false :=
            hall i hi
          rw [Nat.add_comm 1 i] at hres
          rw [hterm] at hres
          exact absurd hres (by simp)

/-- Witness for C4: with two tasks, one succeeding at round 0 and one always
transient, the succeeded task is absent from round 1. -/
theorem claim4_witness :
    (0 : Nat) < 1
  ∧ EmailSender.sendResult
      ((fun (_ : Nat) (t : Mailer.Task) =>
          if t.recipient = "a@x.com" then Mailer.Raw.success
          else Mailer.Raw.resp 451 "busy") 0
        ⟨"a@x.com", "Alice", "Hi"⟩) = true
  ∧ (⟨"a@x.com", "Alice", "Hi"⟩ : Mailer.Task) ∉
      (EmailSender.rounds 3
        (fun (_ : Nat) (t : Mailer.Task) =>
          if t.recipient = "a@x.com" then Mailer.Raw.success
          else Mailer.Raw.resp 451 "busy")
        [⟨"a@x.com", "Alice", "Hi"⟩, ⟨"b@x.com", "Bob", "Yo"⟩]).getD 1 [] :=
  ⟨by decide, by decide,
   (claim4_retry_rounds _ 3 _).2.2 0 1 _ (by decide) (by decide)⟩

/-- C5: with retry bound 3 and a transport that answers 451 (transient) on
every attempt, a non-empty task list is dispatched in exactly 4 rounds
(initial plus 3 retries), each round being the full task list (so every task
is attempted exactly 4 times), and the residual RunResult still lists every
task as pending instead of dropping it. -/
theorem claim5_retry_bound (tasks : List Mailer.Task) (h : tasks ≠ []) :
    EmailSender.rounds 3 (fun _ _ => Mailer.Raw.resp 451 "451 4.3.0 try again")
        tasks = [tasks, tasks, tasks, tasks]
  ∧ EmailSender.finalFailed 3
      (fun _ _ => Mailer.Raw.resp 451 "451 4.3.0 try again") tasks = tasks := by
  have hres : EmailSender.sendResult (Mailer.Raw.resp 451 "451 4.3.0 try again")
      = false := by
    rw [EmailSender.sendResult_resp]
    simp
  have hsep : EmailSender.send_emails_in_parallel
      (fun _ => Mailer.Raw.resp 451 "451 4.3.0 try again") tasks = tasks := by
    unfold EmailSender.send_emails_in_parallel
    rw [List.filter_eq_self]
    intro a _
    rw [hres]
    rfl
  have hie : tasks.isEmpty = false := by
    cases tasks with
    | nil => exact absurd rfl h
    | cons a l => rfl
  constructor
  · unfold EmailSender.rounds EmailSender.retry_rounds
    rw [hsep]
    simp only [hie, Bool.false_eq_true, if_false, ite_false]
    unfold EmailSender.retry_rounds
    rw [hsep]
    simp only [hie, Bool.false_eq_true, if_false, ite_false]
    unfold EmailSender.retry_rounds
    rw [hsep]
    simp only [hie, Bool.false_eq_true, if_false, ite_false]
    rfl
  · unfold EmailSender.finalFailed EmailSender.retry_loop
    rw [hsep]
    simp only [hie, Bool.false_eq_true, if_false, ite_false]
    unfold EmailSender.retry_loop
    rw [hsep]
    simp only [hie, Bool.false_eq_true, if_false, ite_false]
    unfold EmailSender.retry_loop
    rw [hsep]
    simp only [hie, Bool.false_eq_true, if_false, ite_false]
    exact hsep

/-- Witness for C5: a concrete single-task run under an always-451 transport
is dispatched in exactly 4 identical rounds and remains pending. -/
theorem claim5_witness :
    ([⟨"a@x.com", "Alice", "Hi"⟩] : List Mailer.Task) ≠ []
  ∧ EmailSender.rounds 3 (fun _ _ => Mailer.Raw.resp 451 "451 4.3.0 try again")
      [⟨"a@x.com", "Alice", "Hi"⟩]
      = [[⟨"a@x.com", "Alice", "Hi"⟩], [⟨"a@x.com", "Alice", "Hi"⟩],
         [⟨"a@x.com", "Alice", "Hi"⟩], [⟨"a@x.com", "Alice", "Hi"⟩]]
  ∧ EmailSender.finalFailed 3
      (fun _ _ => Mailer.Raw.resp 451 "451 4.3.0 try again")
      [⟨"a@x.com", "Alice", "Hi"⟩] = [⟨"a@x.com", "Alice", "Hi"⟩] :=
  ⟨by decide, (claim5_retry_bound _ (by decide)).1,
   (claim5_retry_bound _ (by decide)).2⟩

/-- C6: `emp_test.main` dispatches the probe batch (the first 2 recipients)
first — the attempt flags of every run start with the probe batch's flags;
if the circuit is Tripped after the probe the run ends in failure without
dispatching any remainder worker, even when probe-only mode was not
requested; if the probe leaves the circuit Open and probe-only mode was
requested, the run ends successfully without touching the remainder; and
only otherwise is the remainder dispatched, after the probe. -/
theorem claim6_staged_probe (outcome : Mailer.Task → Mailer.Raw)
    (test_only : Bool) (recipients : List Mailer.Task) :
    ((EmpTest.main outcome test_only recipients).attempted.take
        (EmpTest.probeRaws outcome recipients).length
      = EmpTest.roundAttempts .Open (EmpTest.probeRaws outcome recipients))
  ∧ (EmpTest.finalState .Open (EmpTest.probeRaws outcome recipients) = .Tripped →
      EmpTest.main outcome test_only recipients
        = ⟨.failure,
            EmpTest.roundAttempts .Open (EmpTest.probeRaws outcome recipients),
            .Tripped⟩)
  ∧ (EmpTest.finalState .Open (EmpTest.probeRaws outcome recipients) = .Open →
      test_only = true →
      EmpTest.main outcome test_only recipients
        = ⟨.success,
            EmpTest.roundAttempts .Open (EmpTest.probeRaws outcome recipients),
            .Open⟩)
  ∧ (EmpTest.finalState .Open (EmpTest.probeRaws outcome recipients) = .Open →
      test_only = false →
      (EmpTest.main outcome test_only recipients).attempted
        = EmpTest.roundAttempts .Open (EmpTest.probeRaws outcome recipients)
          ++ EmpTest.roundAttempts .Open (EmpTest.restRaws outcome recipients)) := by
  refine ⟨?_, ?_, ?_, ?_⟩
  · cases hs : EmpTest.finalState .Open (EmpTest.probeRaws outcome recipients) with
    | Tripped =>
        rw [EmpTest.main_probe_tripped outcome test_only recipients hs]
        rw [← EmpTest.roundAttempts_length EmpTest.CircuitState.Open
          (EmpTest.probeRaws outcome recipients)]
        exact List.take_length _
    | Open =>
        cases test_only with
        | true =>
            rw [EmpTest.main_probe_open_test_only outcome recipients hs]
            rw [← EmpTest.roundAttempts_length EmpTest.CircuitState.Open
              (EmpTest.probeRaws outcome recipients)]
            exact List.take_length _
        | false =>
            rw [EmpTest.main_probe_open_full outcome recipients hs]
            rw [← EmpTest.roundAttempts_length EmpTest.CircuitState.Open
              (EmpTest.probeRaws outcome recipients)]
            exact List.take_left _ _
  · intro hs
    exact EmpTest.main_probe_tripped outcome test_only recipients hs
  · intro hs ht
    subst ht
    exact EmpTest.main_probe_open_test_only outcome recipients hs
  · intro hs ht
    subst ht
    rw [EmpTest.main_probe_open_full outcome recipients hs]

/-- Witness for C6: a probe whose first worker hits 5.7.1 aborts the whole
run with only the two probe workers dispatched, even though probe-only mode
was off; and a clean probe in probe-only mode ends the run successfully. -/
theorem claim6_witness :
    (EmpTest.finalState .Open
        (EmpTest.probeRaws (fun _ => Mailer.Raw.resp 554 "5.7.1 bad reputation")
          [⟨"a@x.com", "A", "S"⟩, ⟨"b@x.com", "B", "S"⟩, ⟨"c@x.com", "C", "S"⟩])
      = .Tripped)
  ∧ EmpTest.main (fun _ => Mailer.Raw.resp 554 "5.7.1 bad reputation") false
      [⟨"a@x.com", "A", "S"⟩, ⟨"b@x.com", "B", "S"⟩, ⟨"c@x.com", "C", "S"⟩]
      = ⟨.failure,
          EmpTest.roundAttempts .Open
            (EmpTest.probeRaws (fun _ => Mailer.Raw.resp 554 "5.7.1 bad reputation")
              [⟨"a@x.com", "A", "S"⟩, ⟨"b@x.com", "B", "S"⟩,
                ⟨"c@x.com", "C", "S"⟩]),
          .Tripped⟩
  ∧ EmpTest.main (fun _ => Mailer.Raw.success) true
      [⟨"a@x.com", "A", "S"⟩, ⟨"b@x.com", "B", "S"⟩, ⟨"c@x.com", "C", "S"⟩]
      = ⟨.success,
          EmpTest.roundAttempts .Open
            (EmpTest.probeRaws (fun _ => Mailer.Raw.success)
              [⟨"a@x.com", "A", "S"⟩, ⟨"b@x.com", "B", "S"⟩,
                ⟨"c@x.com", "C", "S"⟩]),
          .Open⟩ :=
  ⟨by decide,
   (claim6_staged_probe _ false _).2.1 (by decide),
   (claim6_staged_probe _ true _).2.2.1 (by decide) rfl⟩

/-- C7: within a validated run, `emp_test.main` exits with the distinguished
failure status exactly when the run ends with the circuit Tripped, and with
the success status otherwise; the retry-capable variant's `main` exits with
the success status on every run, including runs with residual permanent
failures. -/
theorem claim7_exit_status (outcome : Mailer.Task → Mailer.Raw)
    (test_only : Bool) (recipients : List Mailer.Task) :
    ((EmpTest.main outcome test_only recipients).exitCode = .failure
      ↔ (EmpTest.main outcome test_only recipients).final = .Tripped)
  ∧ ∀ (max_retries : Nat) (outcome2 : Nat → Mailer.Task → Mailer.Raw)
      (tasks : List Mailer.Task),
      (EmailSender.main max_retries outcome2 tasks).2 = .success := by
  refine ⟨?_, fun _ _ _ => rfl⟩
  cases hs : EmpTest.finalState .Open (EmpTest.probeRaws outcome recipients) with
  | Tripped =>
      rw [EmpTest.main_probe_tripped outcome test_only recipients hs]
      simp
  | Open =>
      cases test_only with
      | true =>
          rw [EmpTest.main_probe_open_test_only outcome recipients hs]
          simp
      | false =>
          rw [EmpTest.main_probe_open_full outcome recipients hs]
          cases hb : EmpTest.runBulkExits .Open (EmpTest.restRaws outcome recipients) with
          | true =>
              have hfin := (EmpTest.runBulkExits_open _).mp hb
              simp [hb, hfin]
          | false =>
              have hnf : EmpTest.finalState .Open
                  (EmpTest.restRaws outcome recipients) ≠ .Tripped := by
                intro hc
                rw [(EmpTest.runBulkExits_open _).mpr hc] at hb
                cases hb
              simp [hb, hnf]

/-- C8 counterexample: in the circuit-breaker variant one recipient's
failure DOES affect another task's execution — with the first worker hitting
a 5.7.1 rejection, the second worker (whose own transport would succeed)
performs no submission at all, while with a clean first worker it does. -/
theorem claim8_counterexample :
    EmpTest.roundAttempts .Open
        [Mailer.Raw.resp 554 "5.7.1 spam detected", Mailer.Raw.success]
      = [true, false]
  ∧ EmpTest.roundAttempts .Open [Mailer.Raw.success, Mailer.Raw.success]
      = [true, true] := by decide

/-- C8 (amended): every exception raised during message construction or
submission is caught by the per-task send function, which always returns a
value (no exception escapes the worker); in the retry-capable variant a
task's retry-fate depends only on its own transport result, whatever happens
to other tasks; in the circuit-breaker variant the same isolation holds for
every run without a Fatal (5.7.1) outcome — only the Fatal signal, by
design, makes later workers skip their submission. -/
theorem claim8_isolation :
    (∀ raw : Mailer.Raw, ∃ b : Bool,
        EmailSender.send_email raw = Except.ok b)
  ∧ (∀ (o o2 : Mailer.Task → Mailer.Raw) (tasks : List Mailer.Task)
        (t : Mailer.Task), o t = o2 t →
        (t ∈ EmailSender.send_emails_in_parallel o tasks ↔
          t ∈ EmailSender.send_emails_in_parallel o2 tasks))
  ∧ (∀ raws : List Mailer.Raw,
        raws.all (fun r => ! EmpTest.fatalRaw r) = true →
        EmpTest.roundAttempts .Open raws = List.replicate raws.length true) := by
  refine ⟨?_, ?_, ?_⟩
  · intro raw
    exact ⟨EmailSender.sendResult raw, EmailSender.send_email_ok raw⟩
  · intro o o2 tasks t h
    rw [EmailSender.mem_send_emails_in_parallel,
      EmailSender.mem_send_emails_in_parallel, h]
  · intro raws h
    induction raws with
    | nil => rfl
    | cons r rest ih =>
        have hr : EmpTest.fatalRaw r = false := by
          simp [List.all_cons] at h
          simpa using h.1
        have hrest : rest.all (fun x => ! EmpTest.fatalRaw x) = true := by
          simp [List.all_cons] at h
          simpa using h.2
        show (EmpTest.send_email .Open r).attempted ::
            EmpTest.roundAttempts (EmpTest.send_email .Open r).state rest
          = List.replicate (rest.length + 1) true
        rw [(EmpTest.send_email_open_nonfatal r hr).1,
          (EmpTest.send_email_open_nonfatal r hr).2,
          List.replicate_succ, ih hrest]

/-- Witness for C8 (amended): two oracles agreeing on a task give it the
same retry-fate, and a fatal-free two-worker round attempts every task. -/
theorem claim8_witness :
    ((fun (_ : Mailer.Task) => Mailer.Raw.resp 451 "busy")
        (⟨"u@x.com", "A", "S"⟩ : Mailer.Task)
      = (fun (t : Mailer.Task) =>
          if t.recipient = "u@x.com" then Mailer.Raw.resp 451 "busy"
          else Mailer.Raw.success) (⟨"u@x.com", "A", "S"⟩ : Mailer.Task))
  ∧ ((⟨"u@x.com", "A", "S"⟩ : Mailer.Task) ∈
        EmailSender.send_emails_in_parallel
          (fun _ => Mailer.Raw.resp 451 "busy") [⟨"u@x.com", "A", "S"⟩] ↔
      (⟨"u@x.com", "A", "S"⟩ : Mailer.Task) ∈
        EmailSender.send_emails_in_parallel
          (fun t => if t.recipient = "u@x.com" then Mailer.Raw.resp 451 "busy"
            else Mailer.Raw.success) [⟨"u@x.com", "A", "S"⟩])
  ∧ ([Mailer.Raw.success, Mailer.Raw.exc "timeout"].all
        (fun r => ! EmpTest.fatalRaw r) = true)
  ∧ EmpTest.roundAttempts .Open [Mailer.Raw.success, Mailer.Raw.exc "timeout"]
      = List.replicate 2 true :=
  ⟨by decide,
   claim8_isolation.2.1 _ _ [⟨"u@x.com", "A", "S"⟩] ⟨"u@x.com", "A", "S"⟩
     (by decide),
   by decide,
   claim8_isolation.2.2 _ (by decide)⟩

/-- C9: in the submission loop (`executor.submit` then `time.sleep`), the
time between the starts of any two consecutive submissions is at least the
configured interval (100 ms by default), and the sequence of submission
start times is identical under any assignment of per-task send durations. -/
theorem claim9_rate_spacing (interval : Nat)
    (overhead duration duration2 : Nat → Nat) (i0 clock0 : Nat)
    (tasks : List Mailer.Task) :
    List.Chain' (fun a b => a + interval ≤ b)
      ((Mailer.submissionSchedule interval overhead duration i0 clock0
          tasks).map (fun e => e.2.1))
  ∧ (Mailer.submissionSchedule interval overhead duration i0 clock0
        tasks).map (fun e => (e.1, e.2.1))
      = (Mailer.submissionSchedule interval overhead duration2 i0 clock0
          tasks).map (fun e => (e.1, e.2.1))
  ∧ Mailer.sleepIntervalMs = 100 :=
  ⟨Mailer.submissionSchedule_chain interval overhead duration tasks i0 clock0,
   Mailer.submissionSchedule_starts_duration_free interval overhead duration
     duration2 tasks i0 clock0,
   rfl⟩

/-- C10: in the retry-capable variant, an attempt failing with an exception
that carries no protocol status returns exactly the value of a successful
send, so the task is excluded from the failed set, never retried, and the
residual RunResult of an all-transport-error run is empty — indistinguishable
from an all-Sent run. -/
theorem claim10_transport_error_terminal :
    (∀ m : String,
        EmailSender.send_email (.exc m) = EmailSender.send_email .success
      ∧ EmailSender.sendResult (.exc m) = true)
  ∧ (∀ (m : String) (tasks : List Mailer.Task),
        EmailSender.send_emails_in_parallel (fun _ => .exc m) tasks = [])
  ∧ (∀ (m : String) (max_retries : Nat) (tasks : List Mailer.Task),
        EmailSender.finalFailed max_retries (fun _ _ => .exc m) tasks = []) := by
  have hsep : ∀ (m : String) (tasks : List Mailer.Task),
      EmailSender.send_emails_in_parallel (fun _ => .exc m) tasks = [] := by
    intro m tasks
    unfold EmailSender.send_emails_in_parallel
    rw [List.filter_eq_nil_iff]
    intro a _
    simp [EmailSender.sendResult_exc]
  refine ⟨fun m => ⟨rfl, rfl⟩, hsep, ?_⟩
  intro m max_retries tasks
  unfold EmailSender.finalFailed
  rw [hsep m tasks]
  exact EmailSender.retry_loop_nil _ max_retries 1
